import Mathlib

/-!
# Pomodoro sync engine — verification development

Shallow embedding of the state synchronization engine of the pomodoro
repository, together with theorems settling the frozen claims about it.

The engine exists in two incarnations in the repository:

* the Go backend (`backend/internal/service/pomodoro_service.go`,
  `backend/internal/handler/pomodoro_handler.go`,
  `backend/internal/repository/pomodoro_repository.go`,
  `backend/internal/model/pomodoro.go`), which owns the session ledger,
  the version counter and the optimistic-concurrency guard.  It is
  embedded in namespace `Pomodoro` below.
* the Node service (`src/app.js`), which owns the multi-phase catch-up
  loop (`advanceTimerIfNeeded`) and the settings handlers, but has no
  session ledger and no version guard.  It is embedded in namespace `JS`.

Modelling conventions:

* Wall-clock instants are integers (seconds for the Go model, whose
  arithmetic is all in whole seconds; milliseconds for the JS model).
  `time.Time` subtraction `int(now.Sub(t).Seconds())` on whole-second
  instants is exactly `now - t`.
* Go `int` / JS integral numbers are modelled as `Int`; no value in any
  claim approaches the 64-bit range, so overflow is immaterial.
* The SQL store is modelled per user: one optional `pomodoro_states` row
  plus the list of `pomodoro_sessions` rows.  A service call is one
  transaction: it threads a transaction database and returns the
  *committed* database — the original one whenever the Go code returns
  before `tx.Commit()` (the deferred `tx.Rollback()` then discards every
  in-transaction write).
* `uuid.NewString()` is modelled by passing the fresh id as an argument.
* Fractional JS minutes are modelled as `ℚ`; `Math.round` is `round`
  (both round half toward positive infinity).
-/

namespace Pomodoro

/-- `model.ModeFocus`. -/
def ModeFocus : String := "focus"

/-- `model.ModeShortBreak`. -/
def ModeShortBreak : String := "short_break"

/-- `model.ModeLongBreak`. -/
def ModeLongBreak : String := "long_break"

/-- `model.StatusIdle`. -/
def StatusIdle : String := "idle"

/-- `model.StatusRunning`. -/
def StatusRunning : String := "running"

/-- `model.StatusPaused`. -/
def StatusPaused : String := "paused"

/-- `model.PomodoroState` — the authoritative timer row of one user
(`pomodoro_states`). Timestamps are integral seconds. -/
structure PomodoroState where
  userID : String
  mode : String
  status : String
  remainingSeconds : Int
  focusDurationSeconds : Int
  shortBreakDurationSeconds : Int
  longBreakDurationSeconds : Int
  startedAt : Option Int
  sessionID : Option String
  version : Int
  updatedAt : Int
deriving DecidableEq, Repr

/-- `model.PomodoroSession` — one ledger row (`pomodoro_sessions`). -/
structure PomodoroSession where
  id : String
  userID : String
  mode : String
  plannedDurationSeconds : Int
  actualDurationSeconds : Int
  startedAt : Int
  endedAt : Option Int
  status : String
  createdAt : Int
  updatedAt : Int
deriving DecidableEq, Repr

/-- The per-user slice of the SQLite database: the user's
`pomodoro_states` row (`none` = not found) and their ledger rows. -/
structure DB where
  state : Option PomodoroState
  sessions : List PomodoroSession
deriving DecidableEq, Repr

/-- `repository.GetSessionTx`: `SELECT ... FROM pomodoro_sessions WHERE id = ?`
(`id` is the primary key, so the row is unique when ids are nodup). -/
def getSessionTx (db : DB) (sessionID : String) : Option PomodoroSession :=
  db.sessions.find? (fun s => s.id = sessionID)

/-- `repository.UpdateSessionTx`: `UPDATE pomodoro_sessions SET ... WHERE id = ?`. -/
def updateSessionTx (db : DB) (session : PomodoroSession) : DB :=
  { db with sessions := db.sessions.map (fun s => if s.id = session.id then session else s) }

/-- `repository.InsertSessionTx`: `INSERT INTO pomodoro_sessions ...`. -/
def insertSessionTx (db : DB) (session : PomodoroSession) : DB :=
  { db with sessions := db.sessions ++ [session] }

/-- `repository.UpdateStateTx`: `UPDATE pomodoro_states SET ... WHERE user_id = ?`
(the database slice holds exactly this user's row). -/
def updateStateTx (db : DB) (state : PomodoroState) : DB :=
  { db with state := some state }

/-- `service.StateView` — the snapshot returned to callers. -/
structure StateView where
  userID : String
  mode : String
  status : String
  remainingSeconds : Int
  focusDurationSeconds : Int
  shortBreakDurationSeconds : Int
  longBreakDurationSeconds : Int
  startedAt : Option Int
  sessionID : Option String
  version : Int
  updatedAt : Int
  serverTime : Int
deriving DecidableEq, Repr

/-- `apperrors.APIError`, specialized to the constructors the pomodoro
service uses.  `Conflict` carries the snapshot the Go code puts in
`details["state"]`. -/
inductive APIError where
  | internal (message : String)
  | notFound (code message : String)
  | badRequest (code message : String)
  | conflict (code message : String) (state : StateView)
deriving DecidableEq, Repr

/-- `service.UpdateSettingsInput`. -/
structure UpdateSettingsInput where
  baseVersion : Int
  focusDurationSeconds : Int
  shortBreakDurationSeconds : Int
  longBreakDurationSeconds : Int
deriving DecidableEq, Repr

/-- `PomodoroService.durationForMode`. -/
def durationForMode (state : PomodoroState) : Int :=
  if state.mode = ModeShortBreak then state.shortBreakDurationSeconds
  else if state.mode = ModeLongBreak then state.longBreakDurationSeconds
  else state.focusDurationSeconds

/-- `PomodoroService.currentRemainingSeconds`. -/
def currentRemainingSeconds (state : PomodoroState) (now : Int) : Int :=
  if state.status ≠ StatusRunning ∨ state.startedAt = none then
    if state.remainingSeconds < 0 then 0 else state.remainingSeconds
  else
    let elapsed := now - state.startedAt.getD 0
    let remaining := state.remainingSeconds - elapsed
    if remaining < 0 then 0 else remaining

/-- `PomodoroService.toStateView`. When running, the view carries the
derived remaining time and (as in the source) stamps `startedAt` with the
call time `now`. -/
def toStateView (state : PomodoroState) (now : Int) : StateView :=
  let view : StateView :=
    { userID := state.userID
      mode := state.mode
      status := state.status
      remainingSeconds := state.remainingSeconds
      focusDurationSeconds := state.focusDurationSeconds
      shortBreakDurationSeconds := state.shortBreakDurationSeconds
      longBreakDurationSeconds := state.longBreakDurationSeconds
      startedAt := none
      sessionID := state.sessionID
      version := state.version
      updatedAt := state.updatedAt
      serverTime := now }
  if state.status = StatusRunning then
    { view with remainingSeconds := currentRemainingSeconds state now, startedAt := some now }
  else view

/-- `PomodoroService.isValidMode`. -/
def isValidMode (mode : String) : Bool :=
  mode = ModeFocus || mode = ModeShortBreak || mode = ModeLongBreak

/-- `PomodoroService.ensureVersion`: `baseVersion <= 0` skips the check,
otherwise a mismatch yields a `Conflict` carrying `toStateView state now`. -/
def ensureVersion (baseVersion : Int) (state : PomodoroState) (now : Int) : Option APIError :=
  if baseVersion ≤ 0 ∨ baseVersion = state.version then none
  else some (.conflict "state_conflict" "state changed on another device" (toStateView state now))

/-- `PomodoroService.finishSession`: looks the session up by id; a missing
row (`ErrNotFound`) or a row no longer `running` is silently skipped;
otherwise the actual duration is `planned - remaining` clamped to
`[0, planned]` and the row is closed as completed or cancelled. -/
def finishSession (db : DB) (sessionID : String) (remainingSeconds : Int)
    (completed : Bool) (now : Int) : DB :=
  match getSessionTx db sessionID with
  | none => db
  | some session =>
    if session.status ≠ "running" then db
    else
      let remaining := if remainingSeconds < 0 then 0 else remainingSeconds
      let actual := session.plannedDurationSeconds - remaining
      let actual := if actual < 0 then 0 else actual
      let actual := if actual > session.plannedDurationSeconds then session.plannedDurationSeconds else actual
      updateSessionTx db
        { session with
          status := if completed then "completed" else "cancelled"
          actualDurationSeconds := actual
          endedAt := some now
          updatedAt := now }

/-- `PomodoroService.normalizeCompletedSession` — the reconciliation step.
A running state whose derived remaining time has reached 0 has its active
session closed as completed (with `remaining = 0`, so `actual = planned`)
and becomes **idle on the same mode** with the mode's full configured
duration, bumping the version once. Returns the transaction database and
the (possibly rewritten) state. -/
def normalizeCompletedSession (db : DB) (state : PomodoroState) (now : Int) :
    DB × PomodoroState :=
  if state.status ≠ StatusRunning ∨ state.startedAt = none then (db, state)
  else if currentRemainingSeconds state now > 0 then (db, state)
  else
    let db :=
      match state.sessionID with
      | some sid => finishSession db sid 0 true now
      | none => db
    let state :=
      { state with
        status := StatusIdle
        startedAt := none
        sessionID := none
        remainingSeconds := durationForMode state
        updatedAt := now
        version := state.version + 1 }
    (updateStateTx db state, state)

/-- `PomodoroService.getStateForUpdate`: read the row, then reconcile. -/
def getStateForUpdate (db : DB) (now : Int) :
    Except APIError (DB × PomodoroState) :=
  match db.state with
  | none => .error (.notFound "state_not_found" "pomodoro state not found")
  | some state => .ok (normalizeCompletedSession db state now)

/-- `PomodoroService.GetState`: read, reconcile, **commit**, and return the
view of the reconciled state. -/
def GetState (db : DB) (now : Int) : DB × Except APIError StateView :=
  match db.state with
  | none => (db, .error (.notFound "state_not_found" "pomodoro state not found"))
  | some state0 =>
    let r := normalizeCompletedSession db state0 now
    (r.1, .ok (toStateView r.2 now))

/-- `PomodoroService.Start`.  The fresh `uuid.NewString()` is passed as
`newSessionID`.  The `running` no-op branch returns before `tx.Commit()`,
so the committed database is the original one there. -/
def Start (db : DB) (userID : String) (baseVersion : Int) (now : Int)
    (newSessionID : String) : DB × Except APIError StateView :=
  match db.state with
  | none => (db, .error (.notFound "state_not_found" "pomodoro state not found"))
  | some state0 =>
    let r := normalizeCompletedSession db state0 now
    let tx := r.1
    let state := r.2
    match ensureVersion baseVersion state now with
    | some e => (db, .error e)
    | none =>
      if state.status = StatusRunning then
        (db, .ok (toStateView state now))
      else
        let state :=
          if state.status = StatusIdle then
            { state with remainingSeconds := durationForMode state }
          else state
        let opened :=
          if state.sessionID = none then
            let state := { state with sessionID := some newSessionID }
            let session : PomodoroSession :=
              { id := newSessionID
                userID := userID
                mode := state.mode
                plannedDurationSeconds := state.remainingSeconds
                actualDurationSeconds := 0
                startedAt := now
                endedAt := none
                status := "running"
                createdAt := now
                updatedAt := now }
            (insertSessionTx tx session, state)
          else (tx, state)
        let state :=
          { opened.2 with
            status := StatusRunning
            startedAt := some now
            updatedAt := now
            version := opened.2.version + 1 }
        (updateStateTx opened.1 state, .ok (toStateView state now))

/-- `PomodoroService.Pause`.  The non-running branch returns before
`tx.Commit()`, so the committed database is the original one there. -/
def Pause (db : DB) (baseVersion : Int) (now : Int) :
    DB × Except APIError StateView :=
  match db.state with
  | none => (db, .error (.notFound "state_not_found" "pomodoro state not found"))
  | some state0 =>
    let r := normalizeCompletedSession db state0 now
    let tx := r.1
    let state := r.2
    match ensureVersion baseVersion state now with
    | some e => (db, .error e)
    | none =>
      if state.status ≠ StatusRunning then
        (db, .ok (toStateView state now))
      else
        let state :=
          { state with
            remainingSeconds := currentRemainingSeconds state now
            status := StatusPaused
            startedAt := none
            updatedAt := now
            version := state.version + 1 }
        (updateStateTx tx state, .ok (toStateView state now))

/-- `PomodoroService.Reset`: cancels the active session (if any) with the
derived remaining time, then commits an idle state on the current mode
with the mode's full configured duration. -/
def Reset (db : DB) (baseVersion : Int) (now : Int) :
    DB × Except APIError StateView :=
  match db.state with
  | none => (db, .error (.notFound "state_not_found" "pomodoro state not found"))
  | some state0 =>
    let r := normalizeCompletedSession db state0 now
    let tx := r.1
    let state := r.2
    match ensureVersion baseVersion state now with
    | some e => (db, .error e)
    | none =>
      let tx :=
        match state.sessionID with
        | some sid => finishSession tx sid (currentRemainingSeconds state now) false now
        | none => tx
      let state :=
        { state with
          status := StatusIdle
          startedAt := none
          sessionID := none
          remainingSeconds := durationForMode state
          updatedAt := now
          version := state.version + 1 }
      (updateStateTx tx state, .ok (toStateView state now))

/-- `PomodoroService.SwitchMode`: validates the requested mode first, then
behaves like `Reset` but on the requested mode. -/
def SwitchMode (db : DB) (mode : String) (baseVersion : Int) (now : Int) :
    DB × Except APIError StateView :=
  if ¬ isValidMode mode then
    (db, .error (.badRequest "invalid_mode" "mode must be one of focus, short_break, long_break"))
  else
    match db.state with
    | none => (db, .error (.notFound "state_not_found" "pomodoro state not found"))
    | some state0 =>
      let r := normalizeCompletedSession db state0 now
      let tx := r.1
      let state := r.2
      match ensureVersion baseVersion state now with
      | some e => (db, .error e)
      | none =>
        let tx :=
          match state.sessionID with
          | some sid => finishSession tx sid (currentRemainingSeconds state now) false now
          | none => tx
        let state := { state with mode := mode }
        let state :=
          { state with
            status := StatusIdle
            startedAt := none
            sessionID := none
            remainingSeconds := durationForMode state
            updatedAt := now
            version := state.version + 1 }
        (updateStateTx tx state, .ok (toStateView state now))

/-- `PomodoroService.UpdateSettings`: validates the three durations, applies
them, and — for every non-running status, paused included — resets
`remainingSeconds` to the current mode's (new) configured duration. -/
def UpdateSettings (db : DB) (input : UpdateSettingsInput) (now : Int) :
    DB × Except APIError StateView :=
  if input.focusDurationSeconds ≤ 0 ∨ input.shortBreakDurationSeconds ≤ 0 ∨
      input.longBreakDurationSeconds ≤ 0 then
    (db, .error (.badRequest "invalid_duration" "all durations must be positive seconds"))
  else
    match db.state with
    | none => (db, .error (.notFound "state_not_found" "pomodoro state not found"))
    | some state0 =>
      let r := normalizeCompletedSession db state0 now
      let tx := r.1
      let state := r.2
      match ensureVersion input.baseVersion state now with
      | some e => (db, .error e)
      | none =>
        let state :=
          { state with
            focusDurationSeconds := input.focusDurationSeconds
            shortBreakDurationSeconds := input.shortBreakDurationSeconds
            longBreakDurationSeconds := input.longBreakDurationSeconds }
        let state :=
          if state.status ≠ StatusRunning then
            { state with remainingSeconds := durationForMode state }
          else state
        let state := { state with updatedAt := now, version := state.version + 1 }
        (updateStateTx tx state, .ok (toStateView state now))

/-- What a handler writes back: either the state payload or an error body
(the `400 invalid_base_version` guard, or a service `APIError` rendered by
`writeError`). -/
inductive HandlerResponse where
  | ok (view : StateView)
  | invalidBaseVersion
  | apiError (e : APIError)
deriving DecidableEq, Repr

/-- `handler.switchModeRequest`. -/
structure SwitchModeRequest where
  baseVersion : Int
  mode : String
deriving DecidableEq, Repr

/-- `handler.updateSettingsRequest`. -/
structure UpdateSettingsRequest where
  baseVersion : Int
  focusDurationSeconds : Int
  shortBreakDurationSeconds : Int
  longBreakDurationSeconds : Int
deriving DecidableEq, Repr

/-- `PomodoroHandler.Start` (request body already JSON-decoded into its
`baseVersion`): rejects `baseVersion <= 0` with `400 invalid_base_version`
before invoking the service. -/
def handlerStart (db : DB) (userID : String) (baseVersion : Int) (now : Int)
    (newSessionID : String) : DB × HandlerResponse :=
  if baseVersion ≤ 0 then (db, .invalidBaseVersion)
  else
    match Start db userID baseVersion now newSessionID with
    | (db1, .ok view) => (db1, .ok view)
    | (db1, .error e) => (db1, .apiError e)

/-- `PomodoroHandler.Pause`. -/
def handlerPause (db : DB) (baseVersion : Int) (now : Int) : DB × HandlerResponse :=
  if baseVersion ≤ 0 then (db, .invalidBaseVersion)
  else
    match Pause db baseVersion now with
    | (db1, .ok view) => (db1, .ok view)
    | (db1, .error e) => (db1, .apiError e)

/-- `PomodoroHandler.Reset`. -/
def handlerReset (db : DB) (baseVersion : Int) (now : Int) : DB × HandlerResponse :=
  if baseVersion ≤ 0 then (db, .invalidBaseVersion)
  else
    match Reset db baseVersion now with
    | (db1, .ok view) => (db1, .ok view)
    | (db1, .error e) => (db1, .apiError e)

/-- `PomodoroHandler.SwitchMode`. -/
def handlerSwitchMode (db : DB) (req : SwitchModeRequest) (now : Int) :
    DB × HandlerResponse :=
  if req.baseVersion ≤ 0 then (db, .invalidBaseVersion)
  else
    match SwitchMode db req.mode req.baseVersion now with
    | (db1, .ok view) => (db1, .ok view)
    | (db1, .error e) => (db1, .apiError e)

/-- `PomodoroHandler.UpdateSettings`. -/
def handlerUpdateSettings (db : DB) (req : UpdateSettingsRequest) (now : Int) :
    DB × HandlerResponse :=
  if req.baseVersion ≤ 0 then (db, .invalidBaseVersion)
  else
    match UpdateSettings db
        { baseVersion := req.baseVersion
          focusDurationSeconds := req.focusDurationSeconds
          shortBreakDurationSeconds := req.shortBreakDurationSeconds
          longBreakDurationSeconds := req.longBreakDurationSeconds } now with
    | (db1, .ok view) => (db1, .ok view)
    | (db1, .error e) => (db1, .apiError e)

end Pomodoro

namespace JS

/-- The timer phases of `src/app.js` — the keys of `PHASE_TO_SETTINGS_KEY`
(`parseStoredUserState` maps anything else to `focus`, so the state only
ever holds these three). -/
inductive Phase where
  | focus
  | shortBreak
  | longBreak
deriving DecidableEq, Repr

/-- The timer statuses of `src/app.js` (`parseStoredUserState` maps
anything else to `idle`). -/
inductive JStatus where
  | idle
  | running
  | paused
deriving DecidableEq, Repr

/-- `MIN_DURATION_MINUTES = 0.05`. -/
def MIN_DURATION_MINUTES : ℚ := 1 / 20

/-- `MAX_DURATION_MINUTES = 180`. -/
def MAX_DURATION_MINUTES : ℚ := 180

/-- The user's settings (minutes may be fractional, kept as `ℚ`). -/
structure Settings where
  focusMinutes : ℚ
  shortBreakMinutes : ℚ
  longBreakMinutes : ℚ
  longBreakEvery : Int
deriving DecidableEq, Repr

/-- The `timer` object of a user state; instants are epoch milliseconds. -/
structure Timer where
  phase : Phase
  status : JStatus
  durationMs : Int
  remainingMs : Int
  startedAt : Option Int
  endAt : Option Int
deriving DecidableEq, Repr

/-- The `stats` object of a user state. -/
structure Stats where
  completedFocusSessions : Int
deriving DecidableEq, Repr

/-- A user's state (`version`/`updatedAt`/`tasks` are managed outside the
functions embedded here and are omitted). -/
structure UserState where
  settings : Settings
  stats : Stats
  timer : Timer
deriving DecidableEq, Repr

/-- `roundToTwoDecimals`. -/
def roundToTwoDecimals (value : ℚ) : ℚ :=
  (round (value * 100) : Int) / 100

/-- `minutesToMs`: `Math.round(minutes * 60 * 1000)`. -/
def minutesToMs (minutes : ℚ) : Int :=
  round (minutes * 60 * 1000)

/-- `getPhaseDurationMs` (total on the three valid phases). -/
def getPhaseDurationMs (settings : Settings) (phase : Phase) : Int :=
  match phase with
  | .focus => minutesToMs settings.focusMinutes
  | .shortBreak => minutesToMs settings.shortBreakMinutes
  | .longBreak => minutesToMs settings.longBreakMinutes

/-- `pickBreakPhase`. -/
def pickBreakPhase (settings : Settings) (focusSessionCount : Int) : Phase :=
  if focusSessionCount % settings.longBreakEvery = 0 then .longBreak else .shortBreak

/-- `setPhaseState` (the optional `remainingMs` argument is `none` when the
caller omits it, matching the `Number.isInteger(remainingMs)` guard). -/
def setPhaseState (userState : UserState) (phase : Phase) (status : JStatus)
    (now : Int) (remainingMs : Option Int) : UserState :=
  let durationMs := getPhaseDurationMs userState.settings phase
  if status = .running then
    { userState with
      timer :=
        { phase := phase
          durationMs := durationMs
          status := status
          startedAt := some now
          endAt := some (now + durationMs)
          remainingMs := durationMs } }
  else
    let safeRemainingMs :=
      match remainingMs with
      | some r => max 0 (min r durationMs)
      | none => durationMs
    { userState with
      timer :=
        { phase := phase
          durationMs := durationMs
          status := status
          startedAt := none
          endAt := none
          remainingMs := safeRemainingMs } }

/-- One step of the `advanceTimerIfNeeded` while-loop: precondition of the
loop already checked by the caller. -/
def advanceStep (userState : UserState) (transitionTime : Int) : UserState :=
  if userState.timer.phase = .focus then
    let stats : Stats :=
      { completedFocusSessions := userState.stats.completedFocusSessions + 1 }
    let s := { userState with stats := stats }
    setPhaseState s (pickBreakPhase s.settings stats.completedFocusSessions)
      .running transitionTime none
  else
    setPhaseState userState .focus .running transitionTime none

/-- The `advanceTimerIfNeeded` loop, with the remaining safety budget as
fuel (`safetyCounter < 100` becomes fuel `100` counting down). -/
def advanceLoop : Nat → UserState → Int → Bool → UserState × Bool
  | 0, userState, _, changed => (userState, changed)
  | fuel + 1, userState, now, changed =>
    match userState.timer.endAt with
    | none => (userState, changed)
    | some endAt =>
      if userState.timer.status = .running ∧ now ≥ endAt then
        advanceLoop fuel (advanceStep userState endAt) now true
      else (userState, changed)

/-- `advanceTimerIfNeeded`: advances a running timer across every phase
boundary that `now` has passed (at most 100), returning the new state and
whether anything changed. -/
def advanceTimerIfNeeded (userState : UserState) (now : Int) : UserState × Bool :=
  advanceLoop 100 userState now false

/-- `validateDuration` on an already-numeric payload value: range check,
then round to two decimals. -/
def validateDuration (value : ℚ) (fieldName : String) : Except String ℚ :=
  if value < MIN_DURATION_MINUTES ∨ value > MAX_DURATION_MINUTES then
    .error fieldName
  else .ok (roundToTwoDecimals value)

/-- `validateLongBreakInterval` on an already-integral payload value. -/
def validateLongBreakInterval (value : Int) : Except String Int :=
  if value < 2 ∨ value > 12 then .error "longBreakEvery"
  else .ok value

/-- The settings payload of an `UPDATE_SETTINGS` action (`none` = field
absent; present fields are JSON numbers). -/
structure SettingsPayload where
  focusMinutes : Option ℚ
  shortBreakMinutes : Option ℚ
  longBreakMinutes : Option ℚ
  longBreakEvery : Option Int
deriving DecidableEq, Repr

/-- `handleUpdateSettingsAction`: validates and merges the supplied fields,
recomputes the current phase duration, resets `remainingMs` when idle and
clamps it with `min` when paused; throws (`Except.error`) when no field is
supplied or one is out of range. -/
def handleUpdateSettingsAction (userState : UserState) (payload : SettingsPayload) :
    Except String UserState := do
  let mut settings := userState.settings
  let mut hasUpdate := false
  match payload.focusMinutes with
  | some v =>
    settings := { settings with focusMinutes := (← validateDuration v "focusMinutes") }
    hasUpdate := true
  | none => pure ()
  match payload.shortBreakMinutes with
  | some v =>
    settings := { settings with shortBreakMinutes := (← validateDuration v "shortBreakMinutes") }
    hasUpdate := true
  | none => pure ()
  match payload.longBreakMinutes with
  | some v =>
    settings := { settings with longBreakMinutes := (← validateDuration v "longBreakMinutes") }
    hasUpdate := true
  | none => pure ()
  match payload.longBreakEvery with
  | some v =>
    settings := { settings with longBreakEvery := (← validateLongBreakInterval v) }
    hasUpdate := true
  | none => pure ()
  if ¬ hasUpdate then
    throw "No valid settings fields provided"
  let s := { userState with settings := settings }
  let currentPhaseDurationMs := getPhaseDurationMs s.settings s.timer.phase
  let s := { s with timer := { s.timer with durationMs := currentPhaseDurationMs } }
  let s :=
    if s.timer.status = .idle then
      { s with timer := { s.timer with remainingMs := currentPhaseDurationMs } }
    else s
  let s :=
    if s.timer.status = .paused then
      { s with timer := { s.timer with remainingMs := min s.timer.remainingMs currentPhaseDurationMs } }
    else s
  return s

end JS

namespace Pomodoro

/-! ## Basic lemmas about the engine's helpers -/

theorem normalize_id_of_not_running (db : DB) (s : PomodoroState) (now : Int)
    (h : s.status ≠ StatusRunning) :
    normalizeCompletedSession db s now = (db, s) := by
  simp [normalizeCompletedSession, h]

theorem currentRemainingSeconds_nonneg (s : PomodoroState) (now : Int) :
    0 ≤ currentRemainingSeconds s now := by
  simp only [currentRemainingSeconds]
  split_ifs <;> omega

theorem currentRemainingSeconds_of_expired (s : PomodoroState) (now t : Int)
    (hrun : s.status = StatusRunning) (hst : s.startedAt = some t)
    (hexp : s.remainingSeconds - (now - t) ≤ 0) :
    currentRemainingSeconds s now = 0 := by
  simp only [currentRemainingSeconds, hrun, hst]
  simp only [Option.getD_some]
  split_ifs with h1 <;> simp_all
  omega


theorem toStateView_version (s : PomodoroState) (now : Int) :
    (toStateView s now).version = s.version := by
  unfold toStateView
  split <;> rfl

end Pomodoro

/-! ## C8 — handlers reject `baseVersion <= 0` before touching state -/

open Pomodoro in
/-- **C8.** Every externally submitted mutation with `baseVersion <= 0` is
rejected by its handler with the `400 invalid_base_version` error before
any read or mutation of the user's state (the returned database is the
argument database), so the service's internal "skip version check when
`expected <= 0`" path is unreachable from an external caller. -/
theorem claim_C8_handlers_reject_nonpositive_baseVersion
    (db : DB) (userID newSessionID : String) (bv now : Int)
    (reqSM : SwitchModeRequest) (reqUS : UpdateSettingsRequest)
    (hbv : bv ≤ 0) (hsm : reqSM.baseVersion ≤ 0) (hus : reqUS.baseVersion ≤ 0) :
    handlerStart db userID bv now newSessionID = (db, .invalidBaseVersion) ∧
    handlerPause db bv now = (db, .invalidBaseVersion) ∧
    handlerReset db bv now = (db, .invalidBaseVersion) ∧
    handlerSwitchMode db reqSM now = (db, .invalidBaseVersion) ∧
    handlerUpdateSettings db reqUS now = (db, .invalidBaseVersion) := by
  refine ⟨?_, ?_, ?_, ?_, ?_⟩ <;>
    simp [handlerStart, handlerPause, handlerReset, handlerSwitchMode,
      handlerUpdateSettings, hbv, hsm, hus]

/-- Witness for C8 at a concrete database and requests. -/
theorem claim_C8_witness :
    (0 : Int) ≤ 0 ∧
    Pomodoro.handlerStart { state := none, sessions := [] } "u" 0 7 "sid"
      = ({ state := none, sessions := [] }, .invalidBaseVersion) := by
  refine ⟨le_refl 0, ?_⟩
  exact (claim_C8_handlers_reject_nonpositive_baseVersion
    { state := none, sessions := [] } "u" "sid" 0 7
    { baseVersion := -1, mode := "focus" }
    { baseVersion := 0, focusDurationSeconds := 1500,
      shortBreakDurationSeconds := 300, longBreakDurationSeconds := 900 }
    (by decide) (by decide) (by decide)).1

/-! ## C2 — version conflicts carry the post-reconciliation snapshot -/

open Pomodoro in
/-- **C2.** For every mutation (start, pause, reset, switchMode,
updateSettings) invoked with `baseVersion > 0` (and otherwise valid input):
if `baseVersion` differs from the stored state's post-reconciliation
version, the operation returns a `Conflict` carrying a snapshot of the
post-reconciliation state — whose `version` equals that current version —
and the committed database is the argument database, unchanged. -/
theorem claim_C2_conflict_reflects_post_reconciliation
    (db : DB) (s : PomodoroState) (now bv : Int) (userID newSessionID mode : String)
    (input : UpdateSettingsInput)
    (hdb : db.state = some s)
    (hbv : 0 < bv)
    (hin : input.baseVersion = bv)
    (hmode : isValidMode mode = true)
    (hdur : 0 < input.focusDurationSeconds ∧ 0 < input.shortBreakDurationSeconds ∧
      0 < input.longBreakDurationSeconds)
    (hne : bv ≠ ((normalizeCompletedSession db s now).2).version) :
    Start db userID bv now newSessionID =
      (db, .error (.conflict "state_conflict" "state changed on another device"
        (toStateView (normalizeCompletedSession db s now).2 now))) ∧
    Pause db bv now =
      (db, .error (.conflict "state_conflict" "state changed on another device"
        (toStateView (normalizeCompletedSession db s now).2 now))) ∧
    Reset db bv now =
      (db, .error (.conflict "state_conflict" "state changed on another device"
        (toStateView (normalizeCompletedSession db s now).2 now))) ∧
    SwitchMode db mode bv now =
      (db, .error (.conflict "state_conflict" "state changed on another device"
        (toStateView (normalizeCompletedSession db s now).2 now))) ∧
    UpdateSettings db input now =
      (db, .error (.conflict "state_conflict" "state changed on another device"
        (toStateView (normalizeCompletedSession db s now).2 now))) ∧
    (toStateView (normalizeCompletedSession db s now).2 now).version =
      ((normalizeCompletedSession db s now).2).version := by
  have hev : ensureVersion bv (normalizeCompletedSession db s now).2 now =
      some (.conflict "state_conflict" "state changed on another device"
        (toStateView (normalizeCompletedSession db s now).2 now)) := by
    rw [ensureVersion, if_neg]
    intro h
    rcases h with h | h
    · omega
    · exact hne h
  have hval : ¬ (input.focusDurationSeconds ≤ 0 ∨ input.shortBreakDurationSeconds ≤ 0 ∨
      input.longBreakDurationSeconds ≤ 0) := by omega
  refine ⟨?_, ?_, ?_, ?_, ?_, toStateView_version _ _⟩
  · simp only [Start, hdb, hev]
  · simp only [Pause, hdb, hev]
  · simp only [Reset, hdb, hev]
  · simp only [SwitchMode, hmode, not_true, if_neg, hdb, hev]
    simp
  · simp only [UpdateSettings, hdb, hin, hev, if_neg hval]

/-- Witness for C2: state at version 2, `baseVersion = 1` — conflict whose
snapshot has version 2. -/
theorem claim_C2_witness :
    Pomodoro.Pause
      { state := some
          { userID := "u", mode := "focus", status := "idle", remainingSeconds := 1500,
            focusDurationSeconds := 1500, shortBreakDurationSeconds := 300,
            longBreakDurationSeconds := 900, startedAt := none,
            sessionID := none, version := 2, updatedAt := 0 },
        sessions := [] } 1 10 =
      ({ state := some
          { userID := "u", mode := "focus", status := "idle", remainingSeconds := 1500,
            focusDurationSeconds := 1500, shortBreakDurationSeconds := 300,
            longBreakDurationSeconds := 900, startedAt := none,
            sessionID := none, version := 2, updatedAt := 0 },
         sessions := [] },
       .error (.conflict "state_conflict" "state changed on another device"
        (Pomodoro.toStateView
          { userID := "u", mode := "focus", status := "idle", remainingSeconds := 1500,
            focusDurationSeconds := 1500, shortBreakDurationSeconds := 300,
            longBreakDurationSeconds := 900, startedAt := none,
            sessionID := none, version := 2, updatedAt := 0 } 10))) := by
  have h := claim_C2_conflict_reflects_post_reconciliation
    { state := some
        { userID := "u", mode := "focus", status := "idle", remainingSeconds := 1500,
          focusDurationSeconds := 1500, shortBreakDurationSeconds := 300,
          longBreakDurationSeconds := 900, startedAt := none,
          sessionID := none, version := 2, updatedAt := 0 },
      sessions := [] }
    { userID := "u", mode := "focus", status := "idle", remainingSeconds := 1500,
      focusDurationSeconds := 1500, shortBreakDurationSeconds := 300,
      longBreakDurationSeconds := 900, startedAt := none,
      sessionID := none, version := 2, updatedAt := 0 }
    10 1 "u" "sid" "focus"
    { baseVersion := 1, focusDurationSeconds := 1500,
      shortBreakDurationSeconds := 300, longBreakDurationSeconds := 900 }
    rfl (by decide) rfl (by decide) (by decide) (by decide)
  exact h.2.1

/-! ## C5 — start: idle resumes fresh, paused resumes preserved, running no-op -/

open Pomodoro in
/-- **C5.** After a passing version check (`bv ≤ 0` internal skip or
`bv = version`) on a reconciliation-stable state: `Start` from idle runs
with the full configured duration of the current mode; from paused it runs
with the preserved `remainingSeconds`; from running it returns the current
state unchanged with no commit, no version bump and no new session.  In
the first two cases a session is opened exactly when none is active. -/
theorem claim_C5_start_transitions
    (db : DB) (s : PomodoroState) (now bv : Int) (userID newSessionID : String)
    (hdb : db.state = some s)
    (hver : bv ≤ 0 ∨ bv = s.version)
    (hnx : normalizeCompletedSession db s now = (db, s)) :
    (s.status = StatusIdle →
      Start db userID bv now newSessionID =
        (updateStateTx
          (if s.sessionID = none then
            insertSessionTx db
              { id := newSessionID, userID := userID, mode := s.mode,
                plannedDurationSeconds := durationForMode s, actualDurationSeconds := 0,
                startedAt := now, endedAt := none, status := "running",
                createdAt := now, updatedAt := now }
          else db)
          { s with
            status := StatusRunning
            startedAt := some now
            updatedAt := now
            version := s.version + 1
            remainingSeconds := durationForMode s
            sessionID := if s.sessionID = none then some newSessionID else s.sessionID },
         .ok (toStateView
          { s with
            status := StatusRunning
            startedAt := some now
            updatedAt := now
            version := s.version + 1
            remainingSeconds := durationForMode s
            sessionID := if s.sessionID = none then some newSessionID else s.sessionID }
          now))) ∧
    (s.status = StatusPaused →
      Start db userID bv now newSessionID =
        (updateStateTx
          (if s.sessionID = none then
            insertSessionTx db
              { id := newSessionID, userID := userID, mode := s.mode,
                plannedDurationSeconds := s.remainingSeconds, actualDurationSeconds := 0,
                startedAt := now, endedAt := none, status := "running",
                createdAt := now, updatedAt := now }
          else db)
          { s with
            status := StatusRunning
            startedAt := some now
            updatedAt := now
            version := s.version + 1
            sessionID := if s.sessionID = none then some newSessionID else s.sessionID },
         .ok (toStateView
          { s with
            status := StatusRunning
            startedAt := some now
            updatedAt := now
            version := s.version + 1
            sessionID := if s.sessionID = none then some newSessionID else s.sessionID }
          now))) ∧
    (s.status = StatusRunning →
      Start db userID bv now newSessionID = (db, .ok (toStateView s now))) := by
  have hev : ensureVersion bv s now = none := by
    rw [ensureVersion, if_pos hver]
  refine ⟨?_, ?_, ?_⟩ <;> intro h
  · by_cases hsid : s.sessionID = none <;>
      simp [Start, hdb, hnx, hev, h, hsid, StatusIdle, StatusRunning, StatusPaused]
  · by_cases hsid : s.sessionID = none <;>
      simp [Start, hdb, hnx, hev, h, hsid, StatusIdle, StatusRunning, StatusPaused]
  · simp [Start, hdb, hnx, hev, h, StatusRunning]

namespace Pomodoro

theorem find?_id_eq {db : DB} {sid : String} {sess : PomodoroSession}
    (hfind : getSessionTx db sid = some sess) : sess.id = sid := by
  have h := List.find?_some hfind
  simpa using h

theorem getSessionTx_mem {db : DB} {sid : String} {sess : PomodoroSession}
    (hfind : getSessionTx db sid = some sess) : sess ∈ db.sessions :=
  List.mem_of_find?_eq_some hfind

theorem finishSession_found (db : DB) (sid : String) (sess : PomodoroSession)
    (rem now : Int) (completed : Bool)
    (hfind : getSessionTx db sid = some sess) (hsrun : sess.status = "running")
    (hrem : 0 ≤ rem) :
    finishSession db sid rem completed now =
      updateSessionTx db
        { sess with
          status := if completed then "completed" else "cancelled"
          actualDurationSeconds :=
            min sess.plannedDurationSeconds (max 0 (sess.plannedDurationSeconds - rem))
          endedAt := some now
          updatedAt := now } := by
  simp only [finishSession, hfind, hsrun, ne_eq, not_true_eq_false, if_false]
  congr 1
  have h1 : ¬ (rem < 0) := by omega
  rw [if_neg h1]
  congr 1
  split_ifs <;> omega

end Pomodoro

/-! ## C6 — pause: running→paused with derived remaining, else no-op -/

open Pomodoro in
/-- **C6.** After a passing version check on a reconciliation-stable state:
`Pause` on a running state commits a paused state whose
`remainingSeconds = max 0 (startedAt + remainingSeconds - now)` and whose
`startedAt` is cleared, with one version bump; on a non-running state it
returns the current state with no commit and no version bump. -/
theorem claim_C6_pause_exactness
    (db : DB) (s : PomodoroState) (now bv t : Int)
    (hdb : db.state = some s)
    (hver : bv ≤ 0 ∨ bv = s.version)
    (hnx : normalizeCompletedSession db s now = (db, s)) :
    (s.status = StatusRunning → s.startedAt = some t →
      Pause db bv now =
        (updateStateTx db
          { s with
            remainingSeconds := max 0 (t + s.remainingSeconds - now)
            status := StatusPaused
            startedAt := none
            updatedAt := now
            version := s.version + 1 },
         .ok (toStateView
          { s with
            remainingSeconds := max 0 (t + s.remainingSeconds - now)
            status := StatusPaused
            startedAt := none
            updatedAt := now
            version := s.version + 1 }
          now))) ∧
    (s.status ≠ StatusRunning → Pause db bv now = (db, .ok (toStateView s now))) := by
  have hev : ensureVersion bv s now = none := by
    rw [ensureVersion, if_pos hver]
  constructor
  · intro h hst
    have hcr : currentRemainingSeconds s now = max 0 (t + s.remainingSeconds - now) := by
      simp only [currentRemainingSeconds, h, hst]
      simp only [Option.getD_some, ne_eq, not_true_eq_false, false_or]
      split_ifs with h1 h2 <;> simp_all <;> omega
    simp [Pause, hdb, hnx, hev, h, hcr, StatusRunning]
  · intro h
    simp [Pause, hdb, hnx, hev, h]

/-! ## C7 — reset: to idle on the current mode, cancelling the session -/

open Pomodoro in
/-- **C7.** After a passing version check on a reconciliation-stable state:
`Reset` commits an idle state on the unchanged current mode with the
mode's full configured duration; an active `running` ledger row is closed
as `cancelled` with `actualDurationSeconds = planned - remaining` clamped
to `[0, planned]` — strictly below the planned duration whenever reset
happens before expiry (`remaining > 0`, positive plan). -/
theorem claim_C7_reset_cancels_session
    (db : DB) (s : PomodoroState) (now bv : Int) (sid : String) (sess : PomodoroSession)
    (hdb : db.state = some s)
    (hver : bv ≤ 0 ∨ bv = s.version)
    (hnx : normalizeCompletedSession db s now = (db, s)) :
    ((Reset db bv now).1.state = some
      { s with
        status := StatusIdle
        startedAt := none
        sessionID := none
        remainingSeconds := durationForMode s
        updatedAt := now
        version := s.version + 1 }) ∧
    ((Reset db bv now).2 = .ok (toStateView
      { s with
        status := StatusIdle
        startedAt := none
        sessionID := none
        remainingSeconds := durationForMode s
        updatedAt := now
        version := s.version + 1 }
      now)) ∧
    (s.sessionID = none → (Reset db bv now).1.sessions = db.sessions) ∧
    (s.sessionID = some sid → getSessionTx db sid = some sess → sess.status = "running" →
      (Reset db bv now).1.sessions = db.sessions.map (fun row =>
        if row.id = sid then
          { sess with
            status := "cancelled"
            actualDurationSeconds :=
              min sess.plannedDurationSeconds
                (max 0 (sess.plannedDurationSeconds - currentRemainingSeconds s now))
            endedAt := some now
            updatedAt := now }
        else row) ∧
      (0 ≤ sess.plannedDurationSeconds →
        0 ≤ min sess.plannedDurationSeconds
            (max 0 (sess.plannedDurationSeconds - currentRemainingSeconds s now)) ∧
        min sess.plannedDurationSeconds
            (max 0 (sess.plannedDurationSeconds - currentRemainingSeconds s now)) ≤
          sess.plannedDurationSeconds) ∧
      (0 < currentRemainingSeconds s now → 0 < sess.plannedDurationSeconds →
        min sess.plannedDurationSeconds
            (max 0 (sess.plannedDurationSeconds - currentRemainingSeconds s now)) <
          sess.plannedDurationSeconds)) := by
  have hev : ensureVersion bv s now = none := by
    rw [ensureVersion, if_pos hver]
  refine ⟨?_, ?_, ?_, ?_⟩
  · cases hS : s.sessionID <;> simp [Reset, hdb, hnx, hev, hS, updateStateTx]
  · cases hS : s.sessionID <;> simp [Reset, hdb, hnx, hev, hS, updateStateTx]
  · intro hS
    simp [Reset, hdb, hnx, hev, hS, updateStateTx]
  · intro hS hfind hsrun
    have hid : sess.id = sid := find?_id_eq hfind
    have hfs := finishSession_found db sid sess (currentRemainingSeconds s now) now false
      hfind hsrun (currentRemainingSeconds_nonneg s now)
    refine ⟨?_, fun hpl => ⟨by omega, by omega⟩, fun hcr hpl => by omega⟩
    simp only [Reset, hdb, hnx, hev, hS, hfs]
    simp [updateSessionTx, updateStateTx, hid]

/-! ## C1 — reconciliation of an expired timer -/

/-- C1 scenario: a 1-second focus timer started at `t = 100`, version 1,
with its running ledger row, read at `now = 105` (5 unattended seconds). -/
def c1db : Pomodoro.DB :=
  { state := some
      { userID := "u", mode := "focus", status := "running", remainingSeconds := 1,
        focusDurationSeconds := 1, shortBreakDurationSeconds := 300,
        longBreakDurationSeconds := 900, startedAt := some 100,
        sessionID := some "sess1", version := 1, updatedAt := 100 },
    sessions := [
      { id := "sess1", userID := "u", mode := "focus", plannedDurationSeconds := 1,
        actualDurationSeconds := 0, startedAt := 100, endedAt := none,
        status := "running", createdAt := 100, updatedAt := 100 } ] }

/-- The snapshot `GetState` returns on the C1 scenario. -/
def c1view : Pomodoro.StateView :=
  { userID := "u", mode := "focus", status := "idle", remainingSeconds := 1,
    focusDurationSeconds := 1, shortBreakDurationSeconds := 300,
    longBreakDurationSeconds := 900, startedAt := none, sessionID := none,
    version := 2, updatedAt := 105, serverTime := 105 }

/-- **C1 counterexample.** On the claim's own scenario (1-second focus
timer, read 5 seconds later) the Go reconciliation step returns the state
to **idle on focus** — not `mode = short_break, status = running` as
claimed: the backend never chains into the next phase. -/
theorem claim_C1_counterexample :
    (Pomodoro.GetState c1db 105).2 = Except.ok c1view ∧
    c1view.mode = Pomodoro.ModeFocus ∧
    c1view.status = Pomodoro.StatusIdle ∧
    ¬ (c1view.mode = Pomodoro.ModeShortBreak ∧ c1view.status = Pomodoro.StatusRunning) :=
  ⟨rfl, rfl, rfl, by decide⟩

open Pomodoro in
/-- **C1 (amended).** For every running state whose phase end instant has
passed, the Go reconciliation performed before the next read closes the
active session as `completed` with `actualDurationSeconds` equal to its
planned duration and transitions the state to **idle on the same mode**
with the mode's full configured duration (one version bump) — so the
1-second focus scenario reads back `mode = focus, status = idle` with one
completed focus session of `actualDurationSeconds = 1`.  The next-phase
transition with `status = running` exists only in the Node service's
ledgerless `advanceTimerIfNeeded`, which does advance a running focus
timer past its end instant into the picked break, still running. -/
theorem claim_C1_reconciliation_amended
    (db : DB) (s : PomodoroState) (t now : Int) (sid : String) (sess : PomodoroSession)
    (jsS : JS.UserState) (e : Int)
    (hdb : db.state = some s)
    (hrun : s.status = StatusRunning)
    (hst : s.startedAt = some t)
    (hexp : s.remainingSeconds - (now - t) ≤ 0)
    (hsid : s.sessionID = some sid)
    (hfind : getSessionTx db sid = some sess)
    (hsrun : sess.status = "running")
    (hpl : 0 ≤ sess.plannedDurationSeconds)
    (hjrun : jsS.timer.status = JS.JStatus.running)
    (hjend : jsS.timer.endAt = some e)
    (hjph : jsS.timer.phase = JS.Phase.focus)
    (hnow1 : e ≤ now)
    (hnow2 : now < e + JS.getPhaseDurationMs jsS.settings
      (JS.pickBreakPhase jsS.settings (jsS.stats.completedFocusSessions + 1))) :
    ((GetState db now).1.state = some
      { s with
        status := StatusIdle
        startedAt := none
        sessionID := none
        remainingSeconds := durationForMode s
        updatedAt := now
        version := s.version + 1 }) ∧
    ((GetState db now).2 = .ok (toStateView
      { s with
        status := StatusIdle
        startedAt := none
        sessionID := none
        remainingSeconds := durationForMode s
        updatedAt := now
        version := s.version + 1 }
      now)) ∧
    ((GetState db now).1.sessions = db.sessions.map (fun row =>
      if row.id = sid then
        { sess with
          status := "completed"
          actualDurationSeconds := sess.plannedDurationSeconds
          endedAt := some now
          updatedAt := now }
      else row)) ∧
    (JS.advanceTimerIfNeeded jsS now =
      ({ jsS with
         stats := { completedFocusSessions := jsS.stats.completedFocusSessions + 1 }
         timer :=
          { phase := JS.pickBreakPhase jsS.settings (jsS.stats.completedFocusSessions + 1)
            status := JS.JStatus.running
            durationMs := JS.getPhaseDurationMs jsS.settings
              (JS.pickBreakPhase jsS.settings (jsS.stats.completedFocusSessions + 1))
            remainingMs := JS.getPhaseDurationMs jsS.settings
              (JS.pickBreakPhase jsS.settings (jsS.stats.completedFocusSessions + 1))
            startedAt := some e
            endAt := some (e + JS.getPhaseDurationMs jsS.settings
              (JS.pickBreakPhase jsS.settings (jsS.stats.completedFocusSessions + 1))) } },
       true)) := by
  have hcr : currentRemainingSeconds s now = 0 :=
    currentRemainingSeconds_of_expired s now t hrun hst hexp
  have hfs := finishSession_found db sid sess 0 now true hfind hsrun (by omega)
  have hact : min sess.plannedDurationSeconds (max 0 (sess.plannedDurationSeconds - 0)) =
      sess.plannedDurationSeconds := by omega
  have hid : sess.id = sid := find?_id_eq hfind
  have hnorm : normalizeCompletedSession db s now =
      (updateStateTx (finishSession db sid 0 true now)
        { s with
          status := StatusIdle
          startedAt := none
          sessionID := none
          remainingSeconds := durationForMode s
          updatedAt := now
          version := s.version + 1 },
       { s with
         status := StatusIdle
         startedAt := none
         sessionID := none
         remainingSeconds := durationForMode s
         updatedAt := now
         version := s.version + 1 }) := by
    simp [normalizeCompletedSession, hrun, hst, hcr, hsid]
  refine ⟨?_, ?_, ?_, ?_⟩
  · simp [GetState, hdb, hnorm, updateStateTx]
  · simp [GetState, hdb, hnorm]
  · simp only [GetState, hdb, hnorm]
    rw [hfs, hact] at *
    simp [updateStateTx, updateSessionTx, hid]
  · rw [JS.advanceTimerIfNeeded, show (100 : Nat) = 99 + 1 from rfl, JS.advanceLoop, hjend]
    dsimp only
    rw [if_pos ⟨hjrun, by omega⟩]
    rw [show JS.advanceStep jsS e =
      ({ jsS with
         stats := { completedFocusSessions := jsS.stats.completedFocusSessions + 1 }
         timer :=
          { phase := JS.pickBreakPhase jsS.settings (jsS.stats.completedFocusSessions + 1)
            status := JS.JStatus.running
            durationMs := JS.getPhaseDurationMs jsS.settings
              (JS.pickBreakPhase jsS.settings (jsS.stats.completedFocusSessions + 1))
            remainingMs := JS.getPhaseDurationMs jsS.settings
              (JS.pickBreakPhase jsS.settings (jsS.stats.completedFocusSessions + 1))
            startedAt := some e
            endAt := some (e + JS.getPhaseDurationMs jsS.settings
              (JS.pickBreakPhase jsS.settings (jsS.stats.completedFocusSessions + 1))) } })
      from by simp [JS.advanceStep, hjph, JS.setPhaseState]]
    rw [show (99 : Nat) = 98 + 1 from rfl, JS.advanceLoop]
    dsimp only
    rw [if_neg (by rintro ⟨-, h⟩; omega)]

/-- C1 witness, JS side: a running 25/5/15 focus timer that hit its end
instant at `e = 105`, observed at `now = 105`. -/
def c1js : JS.UserState :=
  { settings :=
      { focusMinutes := 25
        shortBreakMinutes := 5
        longBreakMinutes := 15
        longBreakEvery := 4 },
    stats := { completedFocusSessions := 0 },
    timer :=
      { phase := JS.Phase.focus
        status := JS.JStatus.running
        durationMs := 1500000
        remainingMs := 1500000
        startedAt := some (-1499895)
        endAt := some 105 } }

/-- The state `advanceTimerIfNeeded` leaves from `c1js` at 105: short
break, running. -/
def c1jsAfter : JS.UserState :=
  { settings :=
      { focusMinutes := 25
        shortBreakMinutes := 5
        longBreakMinutes := 15
        longBreakEvery := 4 },
    stats := { completedFocusSessions := 1 },
    timer :=
      { phase := JS.Phase.shortBreak
        status := JS.JStatus.running
        durationMs := 300000
        remainingMs := 300000
        startedAt := some 105
        endAt := some 300105 } }

/-- Witness for C1 (amended) on the 1-second focus scenario: idle on focus
with exactly one completed focus session of `actualDurationSeconds = 1`;
and the JS loop advancing into a running short break. -/
theorem claim_C1_witness :
    (Pomodoro.GetState c1db 105).1.state = some
      { userID := "u", mode := "focus", status := "idle", remainingSeconds := 1,
        focusDurationSeconds := 1, shortBreakDurationSeconds := 300,
        longBreakDurationSeconds := 900, startedAt := none, sessionID := none,
        version := 2, updatedAt := 105 } ∧
    (Pomodoro.GetState c1db 105).1.sessions = [
      { id := "sess1", userID := "u", mode := "focus", plannedDurationSeconds := 1,
        actualDurationSeconds := 1, startedAt := 100, endedAt := some 105,
        status := "completed", createdAt := 100, updatedAt := 105 } ] ∧
    ((Pomodoro.GetState c1db 105).1.sessions.filter
      (fun r => r.status = "completed" && r.mode = "focus" &&
        r.actualDurationSeconds = 1)).length = 1 ∧
    JS.advanceTimerIfNeeded c1js 105 = (c1jsAfter, true) := by
  have hd : JS.getPhaseDurationMs c1js.settings
      (JS.pickBreakPhase c1js.settings (c1js.stats.completedFocusSessions + 1)) = 300000 := by
    have hp : JS.pickBreakPhase c1js.settings (c1js.stats.completedFocusSessions + 1) =
        JS.Phase.shortBreak := by
      rw [JS.pickBreakPhase, if_neg (by decide)]
    rw [hp]
    show JS.minutesToMs 5 = 300000
    unfold JS.minutesToMs
    norm_num
  have h := claim_C1_reconciliation_amended c1db
    { userID := "u", mode := "focus", status := "running", remainingSeconds := 1,
      focusDurationSeconds := 1, shortBreakDurationSeconds := 300,
      longBreakDurationSeconds := 900, startedAt := some 100,
      sessionID := some "sess1", version := 1, updatedAt := 100 }
    100 105 "sess1"
    { id := "sess1", userID := "u", mode := "focus", plannedDurationSeconds := 1,
      actualDurationSeconds := 0, startedAt := 100, endedAt := none,
      status := "running", createdAt := 100, updatedAt := 100 }
    c1js 105
    rfl rfl rfl (by decide) rfl rfl rfl (by decide)
    (by decide) (by decide) (by decide) (by decide) (by rw [hd]; omega)
  refine ⟨h.1, h.2.2.1.trans (by rfl), ?_, h.2.2.2.trans ?_⟩
  · rw [h.2.2.1]
    rfl
  · rw [Prod.mk.injEq]
    refine ⟨?_, rfl⟩
    rw [hd]
    decide

/-! ## C3 — committed version steps -/

/-- C3 scenario: stored state at version 1, running and expired
(a conflict response has already told the client the next version, 2). -/
def c3db : Pomodoro.DB :=
  { state := some
      { userID := "u", mode := "focus", status := "running", remainingSeconds := 1,
        focusDurationSeconds := 1, shortBreakDurationSeconds := 300,
        longBreakDurationSeconds := 900, startedAt := some 100,
        sessionID := some "sess1", version := 1, updatedAt := 100 },
    sessions := [
      { id := "sess1", userID := "u", mode := "focus", plannedDurationSeconds := 1,
        actualDurationSeconds := 0, startedAt := 100, endedAt := none,
        status := "running", createdAt := 100, updatedAt := 100 } ] }

/-- **C3 counterexample.** One successful `Start` call — a single
transaction commit — moves the stored version from 1 to 3: the in-between
value 2 (the expiry reconciliation bump) is never committed, so the
committed sequence skips a value, refuting "increments the version field
by exactly 1 ... no gaps". -/
theorem claim_C3_counterexample :
    Option.map Pomodoro.PomodoroState.version c3db.state = some 1 ∧
    (Pomodoro.Start c3db "u" 2 105 "sess2").2 = Except.ok
      { userID := "u", mode := "focus", status := "running", remainingSeconds := 1,
        focusDurationSeconds := 1, shortBreakDurationSeconds := 300,
        longBreakDurationSeconds := 900, startedAt := some 105,
        sessionID := some "sess2", version := 3, updatedAt := 105, serverTime := 105 } ∧
    Option.map Pomodoro.PomodoroState.version (Pomodoro.Start c3db "u" 2 105 "sess2").1.state =
      some 3 ∧
    (1 : Int) + 1 ≠ 3 :=
  ⟨rfl, rfl, rfl, by decide⟩

open Pomodoro in
/-- **C3 (amended).** Committed changes normally increment `version` by
exactly 1 — read-triggered expiry reconciliation included — but a mutation
whose transaction also performs the expiry reconciliation commits both
bumps at once: on an expired running state, a read commits
`version + 1`, while a successful `Start` (with the matching
post-reconciliation `baseVersion`) commits `version + 2` in one commit,
skipping the intermediate value. -/
theorem claim_C3_version_steps_amended
    (db : DB) (s : PomodoroState) (t now bv : Int) (userID newSessionID : String)
    (hdb : db.state = some s)
    (hrun : s.status = StatusRunning)
    (hst : s.startedAt = some t)
    (hexp : s.remainingSeconds - (now - t) ≤ 0)
    (hbv : bv = s.version + 1) :
    (Option.map PomodoroState.version (GetState db now).1.state = some (s.version + 1)) ∧
    (Option.map PomodoroState.version (Start db userID bv now newSessionID).1.state =
      some (s.version + 2)) ∧
    ((Start db userID bv now newSessionID).2 = .ok (toStateView
      { s with
        status := StatusRunning
        remainingSeconds := durationForMode s
        startedAt := some now
        sessionID := some newSessionID
        updatedAt := now
        version := s.version + 2 }
      now)) := by
  have hcr : currentRemainingSeconds s now = 0 :=
    currentRemainingSeconds_of_expired s now t hrun hst hexp
  have hvv : s.version + 1 + 1 = s.version + 2 := by omega
  cases hS : s.sessionID with
  | none =>
    refine ⟨?_, ?_, ?_⟩ <;>
      simp [GetState, Start, normalizeCompletedSession, hdb, hrun, hst, hcr, hS,
        ensureVersion, hbv, updateStateTx, insertSessionTx, StatusRunning, StatusIdle,
        durationForMode, hvv]
  | some sid =>
    refine ⟨?_, ?_, ?_⟩ <;>
      simp [GetState, Start, normalizeCompletedSession, hdb, hrun, hst, hcr, hS,
        ensureVersion, hbv, updateStateTx, insertSessionTx, StatusRunning, StatusIdle,
        durationForMode, finishSession, hvv]

/-- Witness for C3 (amended): on the expired running state at version 1, a
read commits version 2, while one `Start` with `baseVersion = 2` commits
version 3 in a single transaction. -/
theorem claim_C3_witness :
    Option.map Pomodoro.PomodoroState.version (Pomodoro.GetState c3db 105).1.state = some 2 ∧
    Option.map Pomodoro.PomodoroState.version
      (Pomodoro.Start c3db "u" 2 105 "sess2").1.state = some 3 := by
  have h := claim_C3_version_steps_amended c3db
    { userID := "u", mode := "focus", status := "running", remainingSeconds := 1,
      focusDurationSeconds := 1, shortBreakDurationSeconds := 300,
      longBreakDurationSeconds := 900, startedAt := some 100,
      sessionID := some "sess1", version := 1, updatedAt := 100 }
    100 105 2 "u" "sess2" rfl rfl rfl (by decide) (by decide)
  exact ⟨h.1, h.2.1⟩

/-! ## C4 — updateSettings while paused -/

/-- C4 scenario: paused focus timer with `remainingSeconds = 500` and
focus duration 1500, version 1. -/
def c4db : Pomodoro.DB :=
  { state := some
      { userID := "u", mode := "focus", status := "paused", remainingSeconds := 500,
        focusDurationSeconds := 1500, shortBreakDurationSeconds := 300,
        longBreakDurationSeconds := 900, startedAt := none,
        sessionID := some "p1", version := 1, updatedAt := 0 },
    sessions := [] }

/-- **C4 counterexample.** Updating the focus duration to 600 on a paused
focus timer with `remainingSeconds = 500` commits `remainingSeconds = 600`
in the Go service: `remainingSeconds` *increased* and is not
`min 500 600 = 500` — refuting "never increases ... min of the two". -/
theorem claim_C4_counterexample :
    Option.map Pomodoro.PomodoroState.remainingSeconds c4db.state = some 500 ∧
    Option.map Pomodoro.PomodoroState.remainingSeconds
      (Pomodoro.UpdateSettings c4db
        { baseVersion := 1, focusDurationSeconds := 600,
          shortBreakDurationSeconds := 300, longBreakDurationSeconds := 900 } 50).1.state =
      some 600 ∧
    min (500 : Int) 600 ≠ 600 ∧ (500 : Int) < 600 :=
  ⟨rfl, rfl, by decide, by decide⟩

open Pomodoro in
/-- **C4 (amended).** On a paused state the Go `UpdateSettings` sets
`remainingSeconds` to the current mode's **new configured duration**
regardless of the old value (1000→600 becomes 600, but 500→600 becomes
600 as well); the true clamp `min(old, new)` is performed only by the Node
service's `handleUpdateSettingsAction` for paused timers. -/
theorem claim_C4_update_settings_amended
    (db : DB) (s : PomodoroState) (now : Int) (input : UpdateSettingsInput)
    (jsS : JS.UserState) (f : ℚ)
    (hdb : db.state = some s)
    (hpaused : s.status = StatusPaused)
    (hver : input.baseVersion ≤ 0 ∨ input.baseVersion = s.version)
    (hdur : 0 < input.focusDurationSeconds ∧ 0 < input.shortBreakDurationSeconds ∧
      0 < input.longBreakDurationSeconds)
    (hjpaused : jsS.timer.status = JS.JStatus.paused)
    (hf : JS.MIN_DURATION_MINUTES ≤ f ∧ f ≤ JS.MAX_DURATION_MINUTES) :
    ((UpdateSettings db input now).1.state = some
      { s with
        focusDurationSeconds := input.focusDurationSeconds
        shortBreakDurationSeconds := input.shortBreakDurationSeconds
        longBreakDurationSeconds := input.longBreakDurationSeconds
        remainingSeconds := durationForMode
          { s with
            focusDurationSeconds := input.focusDurationSeconds
            shortBreakDurationSeconds := input.shortBreakDurationSeconds
            longBreakDurationSeconds := input.longBreakDurationSeconds }
        updatedAt := now
        version := s.version + 1 }) ∧
    (JS.handleUpdateSettingsAction jsS
      { focusMinutes := some f, shortBreakMinutes := none, longBreakMinutes := none,
        longBreakEvery := none } = Except.ok
      { jsS with
        settings :=
          { jsS.settings with focusMinutes := JS.roundToTwoDecimals f }
        timer :=
          { jsS.timer with
            durationMs := JS.getPhaseDurationMs
              { jsS.settings with focusMinutes := JS.roundToTwoDecimals f }
              jsS.timer.phase
            remainingMs := min jsS.timer.remainingMs
              (JS.getPhaseDurationMs
                { jsS.settings with focusMinutes := JS.roundToTwoDecimals f }
                jsS.timer.phase) } }) := by
  have hnx : normalizeCompletedSession db s now = (db, s) :=
    normalize_id_of_not_running db s now (by rw [hpaused]; decide)
  have hval : ¬ (input.focusDurationSeconds ≤ 0 ∨ input.shortBreakDurationSeconds ≤ 0 ∨
      input.longBreakDurationSeconds ≤ 0) := by omega
  have hev : ensureVersion input.baseVersion s now = none := by
    rw [ensureVersion, if_pos hver]
  constructor
  · simp [UpdateSettings, hdb, hnx, hev, if_neg hval, hpaused, StatusRunning, StatusPaused,
      updateStateTx]
  · have hvd : JS.validateDuration f "focusMinutes" = .ok (JS.roundToTwoDecimals f) := by
      rw [JS.validateDuration, if_neg (by push_neg; exact ⟨hf.1, hf.2⟩)]
    simp [JS.handleUpdateSettingsAction, hvd, hjpaused]

/-- C4 witness, JS side: paused focus timer with 60000 ms left. -/
def c4js : JS.UserState :=
  { settings :=
      { focusMinutes := 25
        shortBreakMinutes := 5
        longBreakMinutes := 15
        longBreakEvery := 4 },
    stats := { completedFocusSessions := 0 },
    timer :=
      { phase := JS.Phase.focus
        status := JS.JStatus.paused
        durationMs := 1500000
        remainingMs := 60000
        startedAt := none
        endAt := none } }

/-- Witness for C4 (amended): Go commits `remainingSeconds = 600` for the
paused 500-left timer; JS keeps `min 60000 300000 = 60000` ms for a paused
timer whose focus duration is updated to 5 minutes. -/
theorem claim_C4_witness :
    (Pomodoro.UpdateSettings c4db
      { baseVersion := 1, focusDurationSeconds := 600,
        shortBreakDurationSeconds := 300, longBreakDurationSeconds := 900 } 50).1.state =
      some
        { userID := "u", mode := "focus", status := "paused", remainingSeconds := 600,
          focusDurationSeconds := 600, shortBreakDurationSeconds := 300,
          longBreakDurationSeconds := 900, startedAt := none,
          sessionID := some "p1", version := 2, updatedAt := 50 } ∧
    JS.handleUpdateSettingsAction c4js
      { focusMinutes := some 5, shortBreakMinutes := none, longBreakMinutes := none,
        longBreakEvery := none } = Except.ok
      { settings :=
          { focusMinutes := 5
            shortBreakMinutes := 5
            longBreakMinutes := 15
            longBreakEvery := 4 },
        stats := { completedFocusSessions := 0 },
        timer :=
          { phase := JS.Phase.focus
            status := JS.JStatus.paused
            durationMs := 300000
            remainingMs := 60000
            startedAt := none
            endAt := none } } := by
  have h := claim_C4_update_settings_amended c4db
    { userID := "u", mode := "focus", status := "paused", remainingSeconds := 500,
      focusDurationSeconds := 1500, shortBreakDurationSeconds := 300,
      longBreakDurationSeconds := 900, startedAt := none,
      sessionID := some "p1", version := 1, updatedAt := 0 }
    50
    { baseVersion := 1, focusDurationSeconds := 600,
      shortBreakDurationSeconds := 300, longBreakDurationSeconds := 900 }
    c4js 5
    rfl rfl (Or.inr rfl) (by decide) (by decide)
    (by constructor <;> norm_num [JS.MIN_DURATION_MINUTES, JS.MAX_DURATION_MINUTES])
  refine ⟨h.1, h.2.trans ?_⟩
  have h5 : JS.roundToTwoDecimals 5 = 5 := by
    unfold JS.roundToTwoDecimals
    norm_num
  have hd : JS.getPhaseDurationMs
      { c4js.settings with focusMinutes := JS.roundToTwoDecimals 5 }
      c4js.timer.phase = 300000 := by
    rw [h5]
    show JS.minutesToMs 5 = 300000
    unfold JS.minutesToMs
    norm_num
  rw [hd, h5]
  rfl

/-- C5 witness scenario: idle focus state, version 1, no active session. -/
def c5db : Pomodoro.DB :=
  { state := some
      { userID := "u", mode := "focus", status := "idle", remainingSeconds := 1500,
        focusDurationSeconds := 1500, shortBreakDurationSeconds := 300,
        longBreakDurationSeconds := 900, startedAt := none, sessionID := none,
        version := 1, updatedAt := 0 },
    sessions := [] }

/-- Witness for C5: `Start` from idle commits a running state with the
full focus duration, version 2, and one freshly opened session. -/
theorem claim_C5_witness :
    Pomodoro.Start c5db "u" 1 20 "n1" =
      ({ state := some
          { userID := "u", mode := "focus", status := "running", remainingSeconds := 1500,
            focusDurationSeconds := 1500, shortBreakDurationSeconds := 300,
            longBreakDurationSeconds := 900, startedAt := some 20,
            sessionID := some "n1", version := 2, updatedAt := 20 },
         sessions := [
          { id := "n1", userID := "u", mode := "focus", plannedDurationSeconds := 1500,
            actualDurationSeconds := 0, startedAt := 20, endedAt := none,
            status := "running", createdAt := 20, updatedAt := 20 } ] },
       Except.ok
        { userID := "u", mode := "focus", status := "running", remainingSeconds := 1500,
          focusDurationSeconds := 1500, shortBreakDurationSeconds := 300,
          longBreakDurationSeconds := 900, startedAt := some 20,
          sessionID := some "n1", version := 2, updatedAt := 20, serverTime := 20 }) := by
  have h := claim_C5_start_transitions c5db
    { userID := "u", mode := "focus", status := "idle", remainingSeconds := 1500,
      focusDurationSeconds := 1500, shortBreakDurationSeconds := 300,
      longBreakDurationSeconds := 900, startedAt := none, sessionID := none,
      version := 1, updatedAt := 0 }
    20 1 "u" "n1" rfl (Or.inr rfl) (by decide)
  exact (h.1 rfl).trans (by rfl)

/-- C6 witness scenario: 1500-second focus timer running since `t = 0`,
version 2, paused at `now = 500`. -/
def c6db : Pomodoro.DB :=
  { state := some
      { userID := "u", mode := "focus", status := "running", remainingSeconds := 1500,
        focusDurationSeconds := 1500, shortBreakDurationSeconds := 300,
        longBreakDurationSeconds := 900, startedAt := some 0, sessionID := some "n1",
        version := 2, updatedAt := 0 },
    sessions := [
      { id := "n1", userID := "u", mode := "focus", plannedDurationSeconds := 1500,
        actualDurationSeconds := 0, startedAt := 0, endedAt := none,
        status := "running", createdAt := 0, updatedAt := 0 } ] }

/-- Witness for C6: pausing after 500 elapsed seconds commits
`remainingSeconds = 1000`, paused, `startedAt` cleared, one bump. -/
theorem claim_C6_witness :
    Pomodoro.Pause c6db 2 500 =
      ({ state := some
          { userID := "u", mode := "focus", status := "paused", remainingSeconds := 1000,
            focusDurationSeconds := 1500, shortBreakDurationSeconds := 300,
            longBreakDurationSeconds := 900, startedAt := none,
            sessionID := some "n1", version := 3, updatedAt := 500 },
         sessions := [
          { id := "n1", userID := "u", mode := "focus", plannedDurationSeconds := 1500,
            actualDurationSeconds := 0, startedAt := 0, endedAt := none,
            status := "running", createdAt := 0, updatedAt := 0 } ] },
       Except.ok
        { userID := "u", mode := "focus", status := "paused", remainingSeconds := 1000,
          focusDurationSeconds := 1500, shortBreakDurationSeconds := 300,
          longBreakDurationSeconds := 900, startedAt := none,
          sessionID := some "n1", version := 3, updatedAt := 500, serverTime := 500 }) := by
  have h := claim_C6_pause_exactness c6db
    { userID := "u", mode := "focus", status := "running", remainingSeconds := 1500,
      focusDurationSeconds := 1500, shortBreakDurationSeconds := 300,
      longBreakDurationSeconds := 900, startedAt := some 0, sessionID := some "n1",
      version := 2, updatedAt := 0 }
    500 2 0 rfl (Or.inr rfl) (by decide)
  exact (h.1 rfl rfl).trans (by rfl)

/-- C7 witness scenario: same running timer, reset at `now = 500` before
expiry. -/
def c7db : Pomodoro.DB :=
  { state := some
      { userID := "u", mode := "focus", status := "running", remainingSeconds := 1500,
        focusDurationSeconds := 1500, shortBreakDurationSeconds := 300,
        longBreakDurationSeconds := 900, startedAt := some 0, sessionID := some "n1",
        version := 2, updatedAt := 0 },
    sessions := [
      { id := "n1", userID := "u", mode := "focus", plannedDurationSeconds := 1500,
        actualDurationSeconds := 0, startedAt := 0, endedAt := none,
        status := "running", createdAt := 0, updatedAt := 0 } ] }

/-- Witness for C7: reset at 500 elapsed seconds leaves idle/focus with the
full duration and cancels the session with `actualDurationSeconds = 500`,
not the planned 1500. -/
theorem claim_C7_witness :
    (Pomodoro.Reset c7db 2 500).1.state = some
      { userID := "u", mode := "focus", status := "idle", remainingSeconds := 1500,
        focusDurationSeconds := 1500, shortBreakDurationSeconds := 300,
        longBreakDurationSeconds := 900, startedAt := none, sessionID := none,
        version := 3, updatedAt := 500 } ∧
    (Pomodoro.Reset c7db 2 500).1.sessions = [
      { id := "n1", userID := "u", mode := "focus", plannedDurationSeconds := 1500,
        actualDurationSeconds := 500, startedAt := 0, endedAt := some 500,
        status := "cancelled", createdAt := 0, updatedAt := 500 } ] ∧
    (500 : Int) < 1500 := by
  have h := claim_C7_reset_cancels_session c7db
    { userID := "u", mode := "focus", status := "running", remainingSeconds := 1500,
      focusDurationSeconds := 1500, shortBreakDurationSeconds := 300,
      longBreakDurationSeconds := 900, startedAt := some 0, sessionID := some "n1",
      version := 2, updatedAt := 0 }
    500 2 "n1"
    { id := "n1", userID := "u", mode := "focus", plannedDurationSeconds := 1500,
      actualDurationSeconds := 0, startedAt := 0, endedAt := none,
      status := "running", createdAt := 0, updatedAt := 0 }
    rfl (Or.inr rfl) (by decide)
  exact ⟨h.1, ((h.2.2.2 rfl rfl rfl).1).trans (by rfl), by decide⟩

namespace Pomodoro

/-! ## Ledger-immutability lemmas (C9) -/

theorem finishSession_ids (db : DB) (sid : String) (rem now : Int) (completed : Bool) :
    (finishSession db sid rem completed now).sessions.map (fun x => x.id) =
      db.sessions.map (fun x => x.id) := by
  unfold finishSession
  cases hfind : getSessionTx db sid with
  | none => rfl
  | some sess =>
    by_cases hs : sess.status ≠ "running"
    · simp [hs]
    · push_neg at hs
      simp only [hs, ne_eq, not_true_eq_false, if_false, updateSessionTx, List.map_map]
      apply List.map_congr_left
      intro x hx
      by_cases hid : x.id = sess.id <;> simp [hid]

theorem finishSession_preserves_terminal (db : DB) (sid : String) (rem now : Int)
    (completed : Bool) (r : PomodoroSession)
    (hnodup : (db.sessions.map (fun x => x.id)).Nodup)
    (hr : r ∈ db.sessions) (hterm : r.status ≠ "running") :
    r ∈ (finishSession db sid rem completed now).sessions := by
  unfold finishSession
  cases hfind : getSessionTx db sid with
  | none => exact hr
  | some sess =>
    dsimp only
    by_cases hs : sess.status ≠ "running"
    · rw [if_pos hs]
      exact hr
    · push_neg at hs
      simp only [hs, ne_eq, not_true_eq_false, if_false, updateSessionTx]
      have hsm : sess ∈ db.sessions := getSessionTx_mem hfind
      have hne : ¬ (r.id = sess.id) := by
        intro he
        exact hterm (by rw [List.inj_on_of_nodup_map hnodup hr hsm he, hs])
      exact List.mem_map.mpr ⟨r, hr, by simp [hne]⟩

theorem normalize_ids (db : DB) (s : PomodoroState) (now : Int) :
    (normalizeCompletedSession db s now).1.sessions.map (fun x => x.id) =
      db.sessions.map (fun x => x.id) := by
  unfold normalizeCompletedSession
  split_ifs with h1 h2
  · rfl
  · rfl
  · cases hS : s.sessionID with
    | none => simp [updateStateTx]
    | some sid => simp [updateStateTx, finishSession_ids]

theorem normalize_preserves_terminal (db : DB) (s : PomodoroState) (now : Int)
    (r : PomodoroSession)
    (hnodup : (db.sessions.map (fun x => x.id)).Nodup)
    (hr : r ∈ db.sessions) (hterm : r.status ≠ "running") :
    r ∈ (normalizeCompletedSession db s now).1.sessions := by
  unfold normalizeCompletedSession
  split_ifs with h1 h2
  · exact hr
  · exact hr
  · cases hS : s.sessionID with
    | none => simpa [updateStateTx] using hr
    | some sid =>
      simpa [updateStateTx] using
        finishSession_preserves_terminal db sid 0 now true r hnodup hr hterm

end Pomodoro

namespace Pomodoro

theorem GetState_preserves_terminal (db : DB) (now : Int) (r : PomodoroSession)
    (hnodup : (db.sessions.map (fun x => x.id)).Nodup)
    (hr : r ∈ db.sessions) (hterm : r.status ≠ "running") :
    r ∈ (GetState db now).1.sessions := by
  unfold GetState
  cases hdb : db.state with
  | none => exact hr
  | some s0 =>
    dsimp only
    exact normalize_preserves_terminal db s0 now r hnodup hr hterm

theorem Pause_preserves_terminal (db : DB) (bv now : Int) (r : PomodoroSession)
    (hnodup : (db.sessions.map (fun x => x.id)).Nodup)
    (hr : r ∈ db.sessions) (hterm : r.status ≠ "running") :
    r ∈ (Pause db bv now).1.sessions := by
  unfold Pause
  cases hdb : db.state with
  | none => exact hr
  | some s0 =>
    dsimp only
    cases hev : ensureVersion bv (normalizeCompletedSession db s0 now).2 now with
    | some e => exact hr
    | none =>
      dsimp only
      by_cases hst : (normalizeCompletedSession db s0 now).2.status ≠ StatusRunning
      · rw [if_pos hst]
        exact hr
      · rw [if_neg hst]
        simpa [updateStateTx] using normalize_preserves_terminal db s0 now r hnodup hr hterm

theorem Start_preserves_terminal (db : DB) (userID : String) (bv now : Int)
    (newSessionID : String) (r : PomodoroSession)
    (hnodup : (db.sessions.map (fun x => x.id)).Nodup)
    (hr : r ∈ db.sessions) (hterm : r.status ≠ "running") :
    r ∈ (Start db userID bv now newSessionID).1.sessions := by
  unfold Start
  cases hdb : db.state with
  | none => exact hr
  | some s0 =>
    dsimp only
    cases hev : ensureVersion bv (normalizeCompletedSession db s0 now).2 now with
    | some e => exact hr
    | none =>
      dsimp only
      have hbase := normalize_preserves_terminal db s0 now r hnodup hr hterm
      by_cases hst : (normalizeCompletedSession db s0 now).2.status = StatusRunning
      · rw [if_pos hst]
        exact hr
      · rw [if_neg hst]
        simp only [updateStateTx, insertSessionTx]
        split_ifs <;> first
          | exact hbase
          | (simp only [List.mem_append]; exact Or.inl hbase)

theorem Reset_preserves_terminal (db : DB) (bv now : Int) (r : PomodoroSession)
    (hnodup : (db.sessions.map (fun x => x.id)).Nodup)
    (hr : r ∈ db.sessions) (hterm : r.status ≠ "running") :
    r ∈ (Reset db bv now).1.sessions := by
  unfold Reset
  cases hdb : db.state with
  | none => exact hr
  | some s0 =>
    dsimp only
    cases hev : ensureVersion bv (normalizeCompletedSession db s0 now).2 now with
    | some e => exact hr
    | none =>
      dsimp only
      have hbase := normalize_preserves_terminal db s0 now r hnodup hr hterm
      have hnodup2 : ((normalizeCompletedSession db s0 now).1.sessions.map (fun x => x.id)).Nodup := by
        rw [normalize_ids]
        exact hnodup
      cases hS : (normalizeCompletedSession db s0 now).2.sessionID with
      | none => simpa [updateStateTx] using hbase
      | some sid2 =>
        simpa [updateStateTx] using
          finishSession_preserves_terminal (normalizeCompletedSession db s0 now).1 sid2
            (currentRemainingSeconds (normalizeCompletedSession db s0 now).2 now) now false r
            hnodup2 hbase hterm

theorem SwitchMode_preserves_terminal (db : DB) (mode : String) (bv now : Int)
    (r : PomodoroSession)
    (hnodup : (db.sessions.map (fun x => x.id)).Nodup)
    (hr : r ∈ db.sessions) (hterm : r.status ≠ "running") :
    r ∈ (SwitchMode db mode bv now).1.sessions := by
  unfold SwitchMode
  by_cases hm : ¬ isValidMode mode
  · rw [if_pos hm]
    exact hr
  · rw [if_neg hm]
    cases hdb : db.state with
    | none => exact hr
    | some s0 =>
      dsimp only
      cases hev : ensureVersion bv (normalizeCompletedSession db s0 now).2 now with
      | some e => exact hr
      | none =>
        dsimp only
        have hbase := normalize_preserves_terminal db s0 now r hnodup hr hterm
        have hnodup2 : ((normalizeCompletedSession db s0 now).1.sessions.map (fun x => x.id)).Nodup := by
          rw [normalize_ids]
          exact hnodup
        cases hS : (normalizeCompletedSession db s0 now).2.sessionID with
        | none => simpa [updateStateTx] using hbase
        | some sid2 =>
          simpa [updateStateTx] using
            finishSession_preserves_terminal (normalizeCompletedSession db s0 now).1 sid2
              (currentRemainingSeconds (normalizeCompletedSession db s0 now).2 now) now false r
              hnodup2 hbase hterm

theorem UpdateSettings_preserves_terminal (db : DB) (input : UpdateSettingsInput)
    (now : Int) (r : PomodoroSession)
    (hnodup : (db.sessions.map (fun x => x.id)).Nodup)
    (hr : r ∈ db.sessions) (hterm : r.status ≠ "running") :
    r ∈ (UpdateSettings db input now).1.sessions := by
  unfold UpdateSettings
  by_cases hv : input.focusDurationSeconds ≤ 0 ∨ input.shortBreakDurationSeconds ≤ 0 ∨
      input.longBreakDurationSeconds ≤ 0
  · rw [if_pos hv]
    exact hr
  · rw [if_neg hv]
    cases hdb : db.state with
    | none => exact hr
    | some s0 =>
      dsimp only
      cases hev : ensureVersion input.baseVersion (normalizeCompletedSession db s0 now).2 now with
      | some e => exact hr
      | none =>
        dsimp only
        simpa [updateStateTx] using normalize_preserves_terminal db s0 now r hnodup hr hterm

end Pomodoro

/-! ## C9 — closed ledger rows are immutable; clamping at the closing commit -/

open Pomodoro in
/-- **C9.** With unique ledger ids (the `pomodoro_sessions` primary key),
every ledger row whose status has left `running` survives every engine
operation unchanged (it is still present, field-for-field, afterwards);
and at the commit that closes a running row, `finishSession` writes
`actualDurationSeconds` clamped into `[0, plannedDurationSeconds]`: every
row of the resulting ledger is either an untouched pre-existing row or the
freshly closed one satisfying the clamp. -/
theorem claim_C9_closed_sessions_immutable_and_clamped
    (db : DB) (now bv : Int) (userID newSessionID mode : String)
    (input : UpdateSettingsInput) (r : PomodoroSession)
    (sid : String) (rem : Int) (completed : Bool) (sess : PomodoroSession)
    (hnodup : (db.sessions.map (fun x => x.id)).Nodup)
    (hr : r ∈ db.sessions) (hterm : r.status ≠ "running") :
    r ∈ (GetState db now).1.sessions ∧
    r ∈ (Start db userID bv now newSessionID).1.sessions ∧
    r ∈ (Pause db bv now).1.sessions ∧
    r ∈ (Reset db bv now).1.sessions ∧
    r ∈ (SwitchMode db mode bv now).1.sessions ∧
    r ∈ (UpdateSettings db input now).1.sessions ∧
    (getSessionTx db sid = some sess → sess.status = "running" →
      0 ≤ sess.plannedDurationSeconds →
      ∀ x ∈ (finishSession db sid rem completed now).sessions,
        x ∈ db.sessions ∨
          ((x.status = "completed" ∨ x.status = "cancelled") ∧
            0 ≤ x.actualDurationSeconds ∧
            x.actualDurationSeconds ≤ x.plannedDurationSeconds)) := by
  refine ⟨GetState_preserves_terminal db now r hnodup hr hterm,
    Start_preserves_terminal db userID bv now newSessionID r hnodup hr hterm,
    Pause_preserves_terminal db bv now r hnodup hr hterm,
    Reset_preserves_terminal db bv now r hnodup hr hterm,
    SwitchMode_preserves_terminal db mode bv now r hnodup hr hterm,
    UpdateSettings_preserves_terminal db input now r hnodup hr hterm,
    ?_⟩
  intro hfind hsrun hpl x hx
  unfold finishSession at hx
  rw [hfind] at hx
  dsimp only at hx
  rw [if_neg (by simp [hsrun])] at hx
  simp only [updateSessionTx, List.mem_map] at hx
  obtain ⟨a, ha, hax⟩ := hx
  dsimp only at hax
  by_cases hid : a.id = sess.id
  · rw [if_pos hid] at hax
    right
    rw [← hax]
    refine ⟨by cases completed <;> simp, ?_, ?_⟩ <;>
      dsimp only <;> split_ifs <;> omega
  · rw [if_neg hid] at hax
    left
    rw [← hax]
    exact ha

/-- C9 witness scenario: a ledger holding one completed and one running
row; resetting leaves the completed row untouched and closes the running
one within the clamp. -/
def c9db : Pomodoro.DB :=
  { state := some
      { userID := "u", mode := "focus", status := "running", remainingSeconds := 1500,
        focusDurationSeconds := 1500, shortBreakDurationSeconds := 300,
        longBreakDurationSeconds := 900, startedAt := some 0, sessionID := some "b",
        version := 4, updatedAt := 0 },
    sessions := [
      { id := "a", userID := "u", mode := "focus", plannedDurationSeconds := 1500,
        actualDurationSeconds := 1500, startedAt := -2000, endedAt := some (-500),
        status := "completed", createdAt := -2000, updatedAt := -500 },
      { id := "b", userID := "u", mode := "focus", plannedDurationSeconds := 1500,
        actualDurationSeconds := 0, startedAt := 0, endedAt := none,
        status := "running", createdAt := 0, updatedAt := 0 } ] }

/-- Witness for C9 at the concrete two-row ledger. -/
theorem claim_C9_witness :
    { id := "a", userID := "u", mode := "focus", plannedDurationSeconds := 1500,
      actualDurationSeconds := 1500, startedAt := -2000, endedAt := some (-500),
      status := "completed", createdAt := -2000,
      updatedAt := -500 : Pomodoro.PomodoroSession } ∈
      (Pomodoro.Reset c9db 4 600).1.sessions ∧
    (∀ x ∈ (Pomodoro.finishSession c9db "b" 900 false 600).sessions,
      x ∈ c9db.sessions ∨
        ((x.status = "completed" ∨ x.status = "cancelled") ∧
          0 ≤ x.actualDurationSeconds ∧
          x.actualDurationSeconds ≤ x.plannedDurationSeconds)) := by
  have h := claim_C9_closed_sessions_immutable_and_clamped c9db 600 4 "u" "n2" "focus"
    { baseVersion := 4, focusDurationSeconds := 1500,
      shortBreakDurationSeconds := 300, longBreakDurationSeconds := 900 }
    { id := "a", userID := "u", mode := "focus", plannedDurationSeconds := 1500,
      actualDurationSeconds := 1500, startedAt := -2000, endedAt := some (-500),
      status := "completed", createdAt := -2000, updatedAt := -500 }
    "b" 900 false
    { id := "b", userID := "u", mode := "focus", plannedDurationSeconds := 1500,
      actualDurationSeconds := 0, startedAt := 0, endedAt := none,
      status := "running", createdAt := 0, updatedAt := 0 }
    (by decide) (by decide) (by decide)
  exact ⟨h.2.2.2.1, h.2.2.2.2.2.2 rfl rfl (by decide)⟩

namespace Pomodoro

/-- `finishSession` is the identity when the referenced row is missing
(`ErrNotFound` is swallowed) or already terminal. -/
theorem finishSession_skip (db : DB) (sid : String) (rem now : Int) (completed : Bool)
    (hskip : getSessionTx db sid = none ∨
      ∀ sess, getSessionTx db sid = some sess → sess.status ≠ "running") :
    finishSession db sid rem completed now = db := by
  unfold finishSession
  cases hfind : getSessionTx db sid with
  | none => rfl
  | some sess =>
    dsimp only
    rcases hskip with h | h
    · rw [h] at hfind
      cases hfind
    · rw [if_pos (h sess hfind)]

end Pomodoro

/-! ## C10 — dangling or already-terminal session references are tolerated -/

open Pomodoro in
/-- **C10.** If the state's `sessionID` points at a ledger row that does
not exist or is already terminal, the closing operations still succeed:
`Reset` and `SwitchMode` (on a reconciliation-stable state, after a
passing version check) and the expiry reconciliation inside `GetState`
skip the ledger update entirely, clear the session reference, and commit
the new state — the committed database differs from the argument only in
the state row. -/
theorem claim_C10_dangling_session_reference_tolerated
    (db : DB) (s : PomodoroState) (now bv t : Int) (mode sid : String)
    (hdb : db.state = some s)
    (hsid : s.sessionID = some sid)
    (hver : bv ≤ 0 ∨ bv = s.version)
    (hmode : isValidMode mode = true)
    (hskip : getSessionTx db sid = none ∨
      ∀ sess, getSessionTx db sid = some sess → sess.status ≠ "running") :
    (normalizeCompletedSession db s now = (db, s) →
      Reset db bv now =
        (updateStateTx db
          { s with
            status := StatusIdle
            startedAt := none
            sessionID := none
            remainingSeconds := durationForMode s
            updatedAt := now
            version := s.version + 1 },
         .ok (toStateView
          { s with
            status := StatusIdle
            startedAt := none
            sessionID := none
            remainingSeconds := durationForMode s
            updatedAt := now
            version := s.version + 1 }
          now))) ∧
    (normalizeCompletedSession db s now = (db, s) →
      SwitchMode db mode bv now =
        (updateStateTx db
          { s with
            mode := mode
            status := StatusIdle
            startedAt := none
            sessionID := none
            remainingSeconds := durationForMode { s with mode := mode }
            updatedAt := now
            version := s.version + 1 },
         .ok (toStateView
          { s with
            mode := mode
            status := StatusIdle
            startedAt := none
            sessionID := none
            remainingSeconds := durationForMode { s with mode := mode }
            updatedAt := now
            version := s.version + 1 }
          now))) ∧
    (s.status = StatusRunning → s.startedAt = some t → s.remainingSeconds - (now - t) ≤ 0 →
      GetState db now =
        (updateStateTx db
          { s with
            status := StatusIdle
            startedAt := none
            sessionID := none
            remainingSeconds := durationForMode s
            updatedAt := now
            version := s.version + 1 },
         .ok (toStateView
          { s with
            status := StatusIdle
            startedAt := none
            sessionID := none
            remainingSeconds := durationForMode s
            updatedAt := now
            version := s.version + 1 }
          now))) := by
  have hev : ensureVersion bv s now = none := by
    rw [ensureVersion, if_pos hver]
  have hfs := finishSession_skip db sid (currentRemainingSeconds s now) now false hskip
  have hfs0 := finishSession_skip db sid 0 now true hskip
  refine ⟨?_, ?_, ?_⟩
  · intro hnx
    simp [Reset, hdb, hnx, hev, hsid, hfs]
  · intro hnx
    simp [SwitchMode, hmode, hdb, hnx, hev, hsid, hfs]
  · intro hrun hst hexp
    have hcr : currentRemainingSeconds s now = 0 :=
      currentRemainingSeconds_of_expired s now t hrun hst hexp
    simp [GetState, hdb, normalizeCompletedSession, hrun, hst, hcr, hsid, hfs0]

/-- C10 witness scenario: paused state referencing the nonexistent session
id "ghost" over an empty ledger. -/
def c10db : Pomodoro.DB :=
  { state := some
      { userID := "u", mode := "focus", status := "paused", remainingSeconds := 700,
        focusDurationSeconds := 1500, shortBreakDurationSeconds := 300,
        longBreakDurationSeconds := 900, startedAt := none,
        sessionID := some "ghost", version := 3, updatedAt := 0 },
    sessions := [] }

/-- Witness for C10: `Reset` over the dangling reference commits idle with
the reference cleared and the (empty) ledger untouched. -/
theorem claim_C10_witness :
    Pomodoro.Reset c10db 3 50 =
      ({ state := some
          { userID := "u", mode := "focus", status := "idle", remainingSeconds := 1500,
            focusDurationSeconds := 1500, shortBreakDurationSeconds := 300,
            longBreakDurationSeconds := 900, startedAt := none,
            sessionID := none, version := 4, updatedAt := 50 },
         sessions := [] },
       Except.ok
        { userID := "u", mode := "focus", status := "idle", remainingSeconds := 1500,
          focusDurationSeconds := 1500, shortBreakDurationSeconds := 300,
          longBreakDurationSeconds := 900, startedAt := none,
          sessionID := none, version := 4, updatedAt := 50, serverTime := 50 }) := by
  have h := claim_C10_dangling_session_reference_tolerated c10db
    { userID := "u", mode := "focus", status := "paused", remainingSeconds := 700,
      focusDurationSeconds := 1500, shortBreakDurationSeconds := 300,
      longBreakDurationSeconds := 900, startedAt := none,
      sessionID := some "ghost", version := 3, updatedAt := 0 }
    50 3 0 "short_break" "ghost"
    rfl rfl (Or.inr rfl) (by decide) (Or.inl rfl)
  exact (h.1 (by decide)).trans (by rfl)
